import Mathlib

/-!
Verification development for the kk-konsumsi transaction categorizer
(`app.py`).  The Python functions `is_similar`, `categorize_description`,
`extract_rice_quantity` and the aggregation part of `process_data` are
embedded shallowly below; pandas/fuzzywuzzy library calls are embedded by
their documented semantics (group keys sorted ascending, rows with a
missing group key dropped), and the three fuzzywuzzy scores are abstract
parameters, since every claim is independent of their concrete values.
-/

namespace KK

/-! ## Python string primitives -/

/-- Embedding of Python `str.lower()` (ASCII case mapping, which covers
every keyword and label in the program). -/
def pyLower (s : String) : String :=
  ⟨s.data.map Char.toLower⟩

/-- Embedding of Python's substring test `pat in text` (contiguous
substring, via prefix tests at every suffix). -/
def strContains (pat : String) (text : String) : Bool :=
  go pat.data text.data
where
  /-- Check whether `p` occurs contiguously inside `l`. -/
  go (p : List Char) : List Char → Bool
    | [] => p.isEmpty
    | c :: cs => p.isPrefixOf (c :: cs) || go p cs

/-! ## Text Matcher (`is_similar`, app.py lines 7-24)

The three fuzzywuzzy scores (`fuzz.ratio`, `fuzz.partial_ratio` and
`fuzz.token_sort_ratio` in the source) are third-party library calls; they
are modelled as an abstract triple of integer-score functions, so every
theorem below holds for the actual library scores as a special case. -/

/-- Abstract triple of fuzzy-similarity scores used by the matcher:
overall edit-distance score, best-substring-alignment score, and
token-order-insensitive score. -/
structure FuzzMetrics where
  ratioFn : String → String → Nat
  subAlignFn : String → String → Nat
  tokenFn : String → String → Nat

/-- Embedding of `is_similar(text, keywords, threshold)`: lower-case the
text, return true if any lower-cased keyword is a literal substring,
otherwise return true iff some fuzzy score of some keyword reaches the
threshold. -/
def is_similar (fz : FuzzMetrics) (text : String) (keywords : List String)
    (threshold : Nat) : Bool :=
  let t := pyLower text
  if keywords.any (fun keyword => strContains (pyLower keyword) t) then
    true
  else
    keywords.any (fun keyword =>
      let k := pyLower keyword
      decide (threshold ≤ fz.ratioFn t k) ||
      decide (threshold ≤ fz.subAlignFn t k) ||
      decide (threshold ≤ fz.tokenFn t k))

/-- Degenerate fuzzy metrics (every score 0): used to evaluate the
matcher where only the substring path can fire. -/
def zeroFuzz : FuzzMetrics :=
  ⟨fun _ _ => 0, fun _ _ => 0, fun _ _ => 0⟩

/-! ## Categorizer (`categorize_description`, app.py lines 40-69) -/

/-- The hard-coded category/keyword table of `categorize_description`
(app.py lines 45-52), in source order. -/
def categories : List (String × List String) :=
  [("GALON", ["aqua", "galon", "isi ulang", "air minum", "gallon"]),
   ("BERAS", ["beras"]),
   ("MINI TRAINING", ["mini training", "training", "pelatihan"]),
   ("JUMSIH", ["jumsih", "jumat bersih", "jum\x27at", "jum at", "bersih"]),
   ("SYUKURAN", ["syukuran", "syukur"]),
   ("LAINNYA", [])]

/-- The non-preempting categories whose keyword set matches the
(already lower-cased) description: the `matches` dict of app.py
lines 59-62, keeping table order. -/
def matched_categories (fz : FuzzMetrics) (d : String) : List String :=
  (categories.filter
    (fun c => c.1 != "BERAS" && is_similar fz d c.2 85)).map Prod.fst

/-- Embedding of `categorize_description(description)`: lower-case, check
the high-priority BERAS keyword first, otherwise return the single
matching category, or LAINNYA on zero or several matches. -/
def categorize_description (fz : FuzzMetrics) (description : String) : String :=
  let d := pyLower description
  if is_similar fz d ["beras"] 85 then "BERAS"
  else
    let ms := matched_categories fz d
    if ms.length != 1 then "LAINNYA" else ms.headD "LAINNYA"

/-! ## Quantity Extractor (`extract_rice_quantity`, app.py lines 26-38)

The regex `(\d+)(?:\s*)(?:kg|kilogram|kilo)` is embedded by a direct
left-to-right scanner.  Because the unit alternatives all start with a
letter, the regex engine's backtracking can never split a digit run or a
whitespace run, so maximal munch below reproduces `re.findall`. -/

/-- Numeric value of a digit run (Python `int` on the captured group). -/
def digitsVal (ds : List Char) : Nat :=
  ds.foldl (fun n c => 10 * n + (c.toNat - 48)) 0

/-- ASCII whitespace, the `\s` class of the pattern. -/
def isPySpace (c : Char) : Bool :=
  c = ' ' || c = '\t' || c = '\n' || c = '\r' || c = '\x0b' || c = '\x0c'

/-- Length of the unit token accepted at the current position, trying the
alternatives in the pattern's order `kg | kilogram | kilo`. -/
def unitLen (cs : List Char) : Option Nat :=
  if "kg".data.isPrefixOf cs then some 2
  else if "kilogram".data.isPrefixOf cs then some 8
  else if "kilo".data.isPrefixOf cs then some 4
  else none

/-- One scanning pass of the regex engine, with explicit fuel.  Every
recursive call strictly shrinks the list (the digit branch drops at least
the leading digit), so `fuel = length of the list` always suffices and
the fuel never runs out; it is only there to make the recursion
structural. -/
def findallKgAux : Nat → List Char → List Nat
  | 0, _ => []
  | _ + 1, [] => []
  | fuel + 1, c :: cs =>
    if c.isDigit then
      let rest := List.dropWhile Char.isDigit (c :: cs)
      match unitLen (List.dropWhile isPySpace rest) with
      | some k =>
          digitsVal (List.takeWhile Char.isDigit (c :: cs)) ::
            findallKgAux fuel ((List.dropWhile isPySpace rest).drop k)
      | none => findallKgAux fuel rest
    else
      findallKgAux fuel cs

/-- All captured quantities of `re.findall(r'(\d+)(?:\s*)(?:kg|kilogram|kilo)', s)`,
scanning left to right without overlap. -/
def findallKg (cs : List Char) : List Nat :=
  findallKgAux cs.length cs

/-- Embedding of `extract_rice_quantity(description)`: lower-case, and if
the text contains `beras`, sum every captured quantity; otherwise 0. -/
def extract_rice_quantity (description : String) : Nat :=
  let d := pyLower description
  if strContains "beras" d then
    let ms := findallKg d.data
    if ms.isEmpty then 0 else ms.sum
  else 0

/-! ## Python value coercion (`str(...)` at app.py lines 9, 28, 42) -/

/-- Cell values a spreadsheet description column can hold: a string, a
null, or a number.  `str()` coerces each of them without error. -/
inductive PyVal where
  | pyNone : PyVal
  | pyStr : String → PyVal
  | pyInt : Int → PyVal

/-- Embedding of Python `str(v)` on the modelled values. -/
def pyToString : PyVal → String
  | .pyNone => "None"
  | .pyStr s => s
  | .pyInt n => toString n

/-! ## Month period key (`dt.strftime('%b, %Y')`, app.py line 85)

`pd.to_datetime(..., errors='coerce')` restricts dates to the pandas
`Timestamp` range (years 1677-2262, everything else becomes `NaT`), so
`%Y` always prints exactly four digits and `toString` matches it. -/

/-- C-locale `%b` month abbreviation. -/
def monthAbbrev : Nat → String
  | 1 => "Jan" | 2 => "Feb" | 3 => "Mar" | 4 => "Apr"
  | 5 => "May" | 6 => "Jun" | 7 => "Jul" | 8 => "Aug"
  | 9 => "Sep" | 10 => "Oct" | 11 => "Nov" | 12 => "Dec"
  | _ => ""

/-- The `MONTH-YEAR` grouping key `'%b, %Y'` of a (year, month) period. -/
def monthYearKey (y m : Nat) : String :=
  monthAbbrev m ++ ", " ++ toString y

/-! ## Row model and enrichment (`process_data`, app.py lines 71-119)

A raw row carries the `TRANS. DATE` cell (as text) and the `DESCRIPTION`
and `DEBIT` cells.  `pd.to_datetime(..., errors='coerce')` is a
third-party parser; it is modelled as an abstract `String → Option`
function whose `none` is `NaT`, which is exactly what `errors='coerce'`
produces instead of raising.  The `sort_values` call at line 79 only
permutes rows; the grouped tables below sort their own keys (pandas
`groupby` default `sort=True`) and sums are order-independent, so it is
not modelled. -/

/-- An input row before enrichment. -/
structure RawRow where
  rawDate : String
  descr : String
  debit : Int
deriving DecidableEq

/-- An enriched row: `MONTH-YEAR` (none = `NaT` date), `CATEGORY`,
`RICE KG`, `DEBIT`. -/
structure Row where
  monthYear : Option String
  category : String
  riceKg : Nat
  debit : Int
deriving DecidableEq

/-- Enrichment of one row (app.py lines 76-88): coerce the date, derive
the month key, the category and the rice quantity. -/
def enrich_row (fz : FuzzMetrics) (dateParse : String → Option (Nat × Nat))
    (r : RawRow) : Row :=
  { monthYear := (dateParse r.rawDate).map (fun ym => monthYearKey ym.1 ym.2)
    category := categorize_description fz r.descr
    riceKg := extract_rice_quantity r.descr
    debit := r.debit }

/-- Enrichment of the whole table. -/
def process_rows (fz : FuzzMetrics) (dateParse : String → Option (Nat × Nat))
    (rows : List RawRow) : List Row :=
  rows.map (enrich_row fz dateParse)

/-! ## Aggregation (app.py lines 91-111)

pandas `groupby` with the default `sort=True` emits one group per
distinct key, with the keys sorted ascending (for string keys:
lexicographically by code point), and with the default `dropna=True` it
drops rows whose group key is the missing marker. -/

/-- Lexicographic code-point comparison of character lists: the order in
which pandas sorts Python string group keys. -/
def charListLe : List Char → List Char → Bool
  | [], _ => true
  | _ :: _, [] => false
  | a :: as, b :: bs =>
    if a.toNat = b.toNat then charListLe as bs
    else decide (a.toNat < b.toNat)

/-- Lexicographic order on strings, as a proposition. -/
def strle (a b : String) : Prop :=
  charListLe a.data b.data = true

instance : DecidableRel strle := fun a b =>
  inferInstanceAs (Decidable (charListLe a.data b.data = true))

/-- Distinct keys in ascending order: the group keys a pandas `groupby`
emits. -/
def sortKeys (l : List String) : List String :=
  List.insertionSort strle l.dedup

/-- Month keys present among rows whose date parsed (rows with `NaT`
have a missing key and are dropped by `groupby`). -/
def presentKeys (rows : List Row) : List String :=
  rows.filterMap (·.monthYear)

/-- Category labels among rows whose date parsed: the column set of the
`(MONTH-YEAR, CATEGORY)` groupby at line 94. -/
def presentCats (rows : List Row) : List String :=
  (rows.filter (·.monthYear.isSome)).map (·.category)

/-- The rows of one month group. -/
def rowsOfKey (rows : List Row) (k : String) : List Row :=
  rows.filter (fun r => r.monthYear == some k)

/-- The `summary_df` table (line 91): debit total per month key, one row
per distinct key, keys ascending. -/
def summary_df (rows : List Row) : List (String × Int) :=
  (sortKeys (presentKeys rows)).map
    (fun k => (k, ((rowsOfKey rows k).map (·.debit)).sum))

/-- The `category_pivot` table (line 94): per month key, one column per
category label observed on grouped rows, missing pairs filled with 0
(`unstack(fill_value=0)`). -/
def category_pivot (rows : List Row) : List (String × List (String × Int)) :=
  (sortKeys (presentKeys rows)).map (fun k =>
    (k, (sortKeys (presentCats rows)).map (fun c =>
      (c, (((rowsOfKey rows k).filter (fun r => r.category == c)).map
        (·.debit)).sum))))

/-- One row of the `rice_summary` table (lines 97-103). -/
structure RiceRow where
  monthYear : String
  berasKg : Nat
  lainnyaKg : Nat
  totalKg : Nat
deriving DecidableEq

/-- The `rice_summary` table: per month key, the rice total of
BERAS-labelled rows, of LAINNYA-labelled rows with non-zero rice, and of
all rows of the month. -/
def rice_summary (rows : List Row) : List RiceRow :=
  (sortKeys (presentKeys rows)).map (fun k =>
    { monthYear := k
      berasKg := (((rowsOfKey rows k).filter
        (fun r => r.category == "BERAS")).map (·.riceKg)).sum
      lainnyaKg := (((rowsOfKey rows k).filter
        (fun r => r.category == "LAINNYA" && decide (0 < r.riceKg))).map
        (·.riceKg)).sum
      totalKg := ((rowsOfKey rows k).map (·.riceKg)).sum })

/-- One per-category row subset of `category_dfs` (lines 106-108). -/
def category_df (rows : List Row) (c : String) : List Row :=
  rows.filter (fun r => r.category == c)

/-- The `category_dfs['LAINNYA_WITH_RICE']` subset (line 111):
LAINNYA-labelled rows with non-zero rice quantity. -/
def lainnya_with_rice (rows : List Row) : List Row :=
  rows.filter (fun r => r.category == "LAINNYA" && decide (0 < r.riceKg))

/-! ## Spec-modelled generalized categorizer (for claim C10) -/

/-- Modelled from the spec: the configuration surface (spec section 6)
and the Categorizer contract `categorize(description, rule_set)` (spec
section 4.2) call for a caller-supplied category-to-keyword mapping
honored with the same matching semantics; `app.py` has no such
parameter (its table is the in-function constant `categories`), so the
rule-set-parametric categorizer is written here from the spec's words
for comparison with `categorize_description`. -/
def categorizeWith (fz : FuzzMetrics) (rules : List (String × List String))
    (description : String) : String :=
  let d := pyLower description
  let hp := ((rules.find? (fun c => c.1 == "BERAS")).map Prod.snd).getD []
  if is_similar fz d hp 85 then "BERAS"
  else
    let ms := (rules.filter
      (fun c => c.1 != "BERAS" && is_similar fz d c.2 85)).map Prod.fst
    if ms.length != 1 then "LAINNYA" else ms.headD "LAINNYA"

/-- Chronological value of a (year, month) period: later months have a
strictly larger value.  Used to state the ordering claim C6. -/
def periodValue (ym : Nat × Nat) : Nat :=
  12 * ym.1 + ym.2

/-! ## Concrete inputs used by witnesses and counterexamples -/

/-- Concrete date parser: two parseable date texts, everything else
coerces to the missing marker (`NaT`). -/
def exDateParse : String → Option (Nat × Nat) := fun s =>
  if s = "2024-01-15" then some (2024, 1)
  else if s = "2024-02-01" then some (2024, 2)
  else none

/-- Two-row input whose months come out alphabetically inverted. -/
def exRowsMonths : List RawRow :=
  [⟨"2024-01-15", "kopi", 100⟩, ⟨"2024-02-01", "gula", 200⟩]

/-- Input with one well-dated GALON row and one unparsable-dated
SYUKURAN row. -/
def exRowsPivot : List RawRow :=
  [⟨"2024-01-15", "AQUA GALON 19L", 50000⟩,
   ⟨"bad date", "syukuran kantor", 15000⟩]

/-! ## Order facts for the key sort -/

theorem charListLe_total : ∀ a b : List Char,
    charListLe a b = true ∨ charListLe b a = true
  | [], _ => Or.inl rfl
  | _ :: _, [] => Or.inr rfl
  | a :: as, b :: bs => by
    simp only [charListLe]
    by_cases h : a.toNat = b.toNat
    · rw [if_pos h, if_pos h.symm]
      exact charListLe_total as bs
    · rw [if_neg h, if_neg (fun e => h e.symm)]
      rcases Nat.lt_or_ge a.toNat b.toNat with h1 | h1
      · exact Or.inl (decide_eq_true h1)
      · exact Or.inr (decide_eq_true (Nat.lt_of_le_of_ne h1 (fun e => h e.symm)))

theorem charListLe_trans : ∀ a b c : List Char,
    charListLe a b = true → charListLe b c = true → charListLe a c = true
  | [], _, _, _, _ => rfl
  | _ :: _, [], _, h, _ => by cases h
  | _ :: _, _ :: _, [], _, h => by cases h
  | a :: as, b :: bs, c :: cs, h1, h2 => by
    simp only [charListLe] at h1 h2 ⊢
    by_cases hab : a.toNat = b.toNat <;> by_cases hbc : b.toNat = c.toNat
    · rw [if_pos hab] at h1
      rw [if_pos hbc] at h2
      rw [if_pos (hab.trans hbc)]
      exact charListLe_trans as bs cs h1 h2
    · rw [if_pos hab] at h1
      rw [if_neg hbc] at h2
      have hlt := of_decide_eq_true h2
      rw [if_neg (fun e => hbc (hab.symm.trans e))]
      exact decide_eq_true (by omega)
    · rw [if_neg hab] at h1
      rw [if_pos hbc] at h2
      have hlt := of_decide_eq_true h1
      rw [if_neg (fun e => hab (e.trans hbc.symm))]
      exact decide_eq_true (by omega)
    · rw [if_neg hab] at h1
      rw [if_neg hbc] at h2
      have hlt1 := of_decide_eq_true h1
      have hlt2 := of_decide_eq_true h2
      rw [if_neg (by omega)]
      exact decide_eq_true (by omega)

instance : IsTotal String strle :=
  ⟨fun a b => charListLe_total a.data b.data⟩

instance : IsTrans String strle :=
  ⟨fun a b c => charListLe_trans a.data b.data c.data⟩

/-- The groupby key list is pairwise strictly ascending: ascending in the
lexicographic order and without duplicates. -/
theorem sortKeys_strictSorted (l : List String) :
    (sortKeys l).Pairwise (fun a b => strle a b ∧ a ≠ b) := by
  have hs : (sortKeys l).Pairwise strle := List.sorted_insertionSort strle l.dedup
  have hn : (sortKeys l).Nodup :=
    ((List.perm_insertionSort strle l.dedup).nodup_iff).mpr (List.nodup_dedup l)
  exact hs.and hn

theorem mem_sortKeys {l : List String} {k : String} : k ∈ sortKeys l ↔ k ∈ l :=
  (List.mem_insertionSort strle).trans (List.mem_dedup)

theorem mem_presentKeys {rows : List Row} {k : String} :
    k ∈ presentKeys rows ↔ some k ∈ rows.map (·.monthYear) := by
  simp [presentKeys, List.mem_filterMap, List.mem_map, eq_comm]

/-! ## Substring facts -/

theorem isPrefixOf_map (f : Char → Char) :
    ∀ {p l : List Char}, p.isPrefixOf l = true → (p.map f).isPrefixOf (l.map f) = true
  | [], _, _ => by simp
  | _ :: _, [], h => by cases h
  | a :: as, b :: bs, h => by
    rw [List.isPrefixOf_cons₂, Bool.and_eq_true] at h
    obtain ⟨h1, h2⟩ := h
    obtain rfl : a = b := beq_iff_eq.mp h1
    simp only [List.map_cons, List.isPrefixOf_cons₂, Bool.and_eq_true]
    exact ⟨beq_self_eq_true _, isPrefixOf_map f h2⟩

theorem containsGo_map (f : Char → Char) :
    ∀ {p l : List Char}, strContains.go p l = true →
      strContains.go (p.map f) (l.map f) = true
  | p, [], h => by
    obtain rfl : p = [] := by simpa [strContains.go] using h
    rfl
  | p, c :: cs, h => by
    rw [show strContains.go p (c :: cs) =
      (p.isPrefixOf (c :: cs) || strContains.go p cs) from rfl,
      Bool.or_eq_true] at h
    rw [List.map_cons,
      show strContains.go (p.map f) (f c :: cs.map f) =
        ((p.map f).isPrefixOf (f c :: cs.map f) || strContains.go (p.map f) (cs.map f)) from rfl,
      Bool.or_eq_true]
    rcases h with h | h
    · exact Or.inl (by simpa using isPrefixOf_map f h)
    · exact Or.inr (containsGo_map f h)

/-- Lower-casing is idempotent on the substring check for the all-lower
keyword `beras`. -/
theorem contains_beras_double {d : String}
    (h : strContains "beras" (pyLower d) = true) :
    strContains "beras" (pyLower (pyLower d)) = true := by
  have h2 := containsGo_map Char.toLower (p := "beras".data) (l := (pyLower d).data) h
  rwa [show ("beras".data.map Char.toLower) = "beras".data from by decide] at h2

/-- The matcher returns true through its direct-substring branch. -/
theorem is_similar_of_member_contains {fz : FuzzMetrics} {text : String}
    {keywords : List String} {threshold : Nat} {k : String}
    (hk : k ∈ keywords) (h : strContains (pyLower k) (pyLower text) = true) :
    is_similar fz text keywords threshold = true := by
  simp only [is_similar]
  rw [if_pos (List.any_eq_true.mpr ⟨k, hk, h⟩)]

/-- A description containing `beras` (after lower-casing) is always
categorized BERAS, whatever the fuzzy scores. -/
theorem categorize_beras_of_contains (fz : FuzzMetrics) (d : String)
    (h : strContains "beras" (pyLower d) = true) :
    categorize_description fz d = "BERAS" := by
  simp only [categorize_description]
  rw [if_pos]
  apply is_similar_of_member_contains (k := "beras") (by simp)
  rw [show pyLower "beras" = "beras" from by decide]
  exact contains_beras_double h

/-! ## Claim C1 -/

/-- C1: if the high-priority keyword set `['beras']` matches the
(lower-cased) description via the matcher — in particular whenever
`beras` occurs as a case-insensitive substring — then
`categorize_description` returns BERAS, regardless of any other keyword
present and of the fuzzy scores. -/
theorem C1_high_priority_beras (fz : FuzzMetrics) (description : String)
    (h : is_similar fz (pyLower description) ["beras"] 85 = true ∨
         strContains "beras" (pyLower description) = true) :
    categorize_description fz description = "BERAS" := by
  rcases h with h | h
  · simp only [categorize_description]
    rw [if_pos h]
  · exact categorize_beras_of_contains fz description h

/-- Witness for C1 at a description that also contains GALON keywords. -/
theorem C1_high_priority_beras_w :
    categorize_description zeroFuzz "BERAS 5kg dan aqua galon isi ulang" = "BERAS" :=
  C1_high_priority_beras zeroFuzz _ (Or.inr (by decide))

/-! ## Claim C2 -/

/-- C2: when the BERAS keyword set does not match, zero or two-or-more
matching non-preempting categories yield LAINNYA, and exactly one
matching category yields that category's label. -/
theorem C2_ambiguity_policy (fz : FuzzMetrics) (d : String)
    (h : is_similar fz (pyLower d) ["beras"] 85 = false) :
    ((matched_categories fz (pyLower d) = [] ∨
        2 ≤ (matched_categories fz (pyLower d)).length) →
      categorize_description fz d = "LAINNYA") ∧
    (∀ c, matched_categories fz (pyLower d) = [c] →
      categorize_description fz d = c) := by
  constructor
  · intro hm
    simp only [categorize_description]
    rw [if_neg (by simp [h])]
    have hlen : (matched_categories fz (pyLower d)).length ≠ 1 := by
      rcases hm with hm | hm
      · simp [hm]
      · omega
    simp [hlen]
  · intro c hc
    simp only [categorize_description]
    rw [if_neg (by simp [h])]
    rw [hc]
    simp

/-- Witness for C2: a zero-match row, a two-match row (MINI TRAINING and
JUMSIH), and a single-match row. -/
theorem C2_ambiguity_policy_w :
    categorize_description zeroFuzz "kopi gula teh" = "LAINNYA" ∧
    categorize_description zeroFuzz "Training mini dan jumat bersih" = "LAINNYA" ∧
    categorize_description zeroFuzz "syukuran kantor" = "SYUKURAN" :=
  ⟨(C2_ambiguity_policy zeroFuzz _ (by decide)).1 (Or.inl (by decide)),
   (C2_ambiguity_policy zeroFuzz _ (by decide)).1 (Or.inr (by decide)),
   (C2_ambiguity_policy zeroFuzz _ (by decide)).2 "SYUKURAN" (by decide)⟩

/-! ## Claim C3 -/

/-- C3: whenever some keyword of a non-empty keyword set occurs as a
case-insensitive literal substring of the text, the matcher returns true
for every threshold and all fuzzy scores. -/
theorem C3_substring_matches (fz : FuzzMetrics) (text : String)
    (keywords : List String) (threshold : Nat)
    (_hne : keywords ≠ [])
    (h : ∃ k ∈ keywords, strContains (pyLower k) (pyLower text) = true) :
    is_similar fz text keywords threshold = true := by
  obtain ⟨k, hk, hc⟩ := h
  exact is_similar_of_member_contains hk hc

/-- Witness for C3 at threshold 100 with zero fuzzy scores. -/
theorem C3_substring_matches_w :
    is_similar zeroFuzz "ada AQUA disini" ["aqua", "galon"] 100 = true :=
  C3_substring_matches zeroFuzz _ _ 100 (by decide) ⟨"aqua", by decide, by decide⟩

/-! ## Claim C4 -/

/-- C4: `extract_rice_quantity` sums every digit-plus-kilogram-unit
mention when `beras` is present (`'beras 5kg dan 3kg'` gives 8), and
returns 0 when the keyword is absent or no pattern matches. -/
theorem C4_quantity_sum :
    extract_rice_quantity "beras 5kg dan 3kg" = 8 ∧
    (∀ d, strContains "beras" (pyLower d) = true →
      extract_rice_quantity d = (findallKg (pyLower d).data).sum) ∧
    (∀ d, strContains "beras" (pyLower d) = false →
      extract_rice_quantity d = 0) ∧
    (∀ d, findallKg (pyLower d).data = [] → extract_rice_quantity d = 0) := by
  refine ⟨by decide, ?_, ?_, ?_⟩
  · intro d h
    simp only [extract_rice_quantity]
    rw [if_pos h]
    cases hms : findallKg (pyLower d).data with
    | nil => simp [hms]
    | cons x xs => simp [hms]
  · intro d h
    simp [extract_rice_quantity, h]
  · intro d h
    simp [extract_rice_quantity, h]

/-- Witness for C4: the multi-mention sum, and a quantity pattern
without the keyword. -/
theorem C4_quantity_sum_w :
    extract_rice_quantity "beras 5kg dan 3kg" = 8 ∧
    extract_rice_quantity "kopi gula 3kg" = 0 :=
  ⟨C4_quantity_sum.1, C4_quantity_sum.2.2.1 "kopi gula 3kg" (by decide)⟩

/-! ## Claim C5 -/

/-- A positive extracted quantity forces the `beras` substring. -/
theorem contains_of_extract_pos {d : String}
    (h : 0 < extract_rice_quantity d) :
    strContains "beras" (pyLower d) = true := by
  cases hc : strContains "beras" (pyLower d) with
  | true => rfl
  | false =>
    rw [show extract_rice_quantity d = 0 from by
      simp [extract_rice_quantity, hc]] at h
    exact absurd h (by omega)

/-- C5 counterexample: no description at all — under any fuzzy scores —
is categorized LAINNYA while carrying a non-zero extracted quantity,
because a non-zero quantity requires the `beras` substring, which
preempts the category to BERAS. -/
theorem C5_cex : ¬ ∃ (fz : FuzzMetrics) (d : String),
    categorize_description fz d = "LAINNYA" ∧
    0 < extract_rice_quantity d := by
  rintro ⟨fz, d, hcat, hq⟩
  have hb := categorize_beras_of_contains fz d (contains_of_extract_pos hq)
  rw [hcat] at hb
  exact absurd hb (by decide)

/-- C5 amended: the extractor is computed independently of the
categorizer, but every row with a non-zero quantity is necessarily
categorized BERAS, so the LAINNYA-with-rice subset is always empty and
the fallback-with-quantity aggregate is always zero. -/
theorem C5_no_lainnya_rice :
    (∀ (fz : FuzzMetrics) (d : String),
      0 < extract_rice_quantity d → categorize_description fz d = "BERAS") ∧
    (∀ (fz : FuzzMetrics) (dateParse : String → Option (Nat × Nat))
      (rows : List RawRow),
      lainnya_with_rice (process_rows fz dateParse rows) = []) ∧
    (∀ (fz : FuzzMetrics) (dateParse : String → Option (Nat × Nat))
      (rows : List RawRow),
      ∀ e ∈ rice_summary (process_rows fz dateParse rows), e.lainnyaKg = 0) := by
  have hpos : ∀ (fz : FuzzMetrics) (d : String),
      0 < extract_rice_quantity d → categorize_description fz d = "BERAS" :=
    fun fz d h => categorize_beras_of_contains fz d (contains_of_extract_pos h)
  have hrow : ∀ (fz : FuzzMetrics) (dateParse : String → Option (Nat × Nat))
      (rows : List RawRow) (r : Row), r ∈ process_rows fz dateParse rows →
      (r.category == "LAINNYA" && decide (0 < r.riceKg)) = false := by
    intro fz dp rows r hr
    obtain ⟨raw, _, rfl⟩ := List.mem_map.mp hr
    by_cases hq : 0 < (enrich_row fz dp raw).riceKg
    · have hcat : (enrich_row fz dp raw).category = "BERAS" := hpos fz raw.descr hq
      simp [hcat]
    · simp [hq]
  refine ⟨hpos, ?_, ?_⟩
  · intro fz dp rows
    exact List.filter_eq_nil_iff.mpr
      (fun r hr => by simp [hrow fz dp rows r hr])
  · intro fz dp rows e he
    obtain ⟨k, _, rfl⟩ := List.mem_map.mp he
    have hfil : (rowsOfKey (process_rows fz dp rows) k).filter
        (fun r => r.category == "LAINNYA" && decide (0 < r.riceKg)) = [] := by
      apply List.filter_eq_nil_iff.mpr
      intro r hr
      have hmem : r ∈ process_rows fz dp rows := (List.mem_filter.mp hr).1
      simp [hrow fz dp rows r hmem]
    simp [hfil]

/-- Witness for C5's amended statement. -/
theorem C5_no_lainnya_rice_w :
    categorize_description zeroFuzz "beras 5kg dan kopi gula" = "BERAS" ∧
    lainnya_with_rice (process_rows zeroFuzz exDateParse exRowsPivot) = [] :=
  ⟨C5_no_lainnya_rice.1 zeroFuzz _ (by decide),
   C5_no_lainnya_rice.2.1 zeroFuzz exDateParse exRowsPivot⟩

/-! ## Claim C6 -/

/-- C6 counterexample: with a January and a February 2024 row, the
monthly total lists the February row first — `'%b, %Y'` keys are sorted
alphabetically — although February's chronological period value is
strictly larger, so the rows are not ordered by chronological period
value. -/
theorem C6_cex :
    summary_df (process_rows zeroFuzz exDateParse exRowsMonths) =
      [(monthYearKey 2024 2, 200), (monthYearKey 2024 1, 100)] ∧
    periodValue (2024, 1) < periodValue (2024, 2) :=
  ⟨by decide, by decide⟩

/-- C6 amended: the monthly total has one row per distinct month key
(its key column is strictly ascending, hence duplicate-free, and covers
exactly the keys present on date-parsed rows), ordered lexicographically
by the formatted `'%b, %Y'` string — which is not chronological period
order. -/
theorem C6_monthly_total_order (rows : List Row) :
    ((summary_df rows).map Prod.fst).Pairwise (fun a b => strle a b ∧ a ≠ b) ∧
    (∀ k, k ∈ (summary_df rows).map Prod.fst ↔
      some k ∈ rows.map (·.monthYear)) := by
  have hkeys : (summary_df rows).map Prod.fst = sortKeys (presentKeys rows) := by
    simp only [summary_df, List.map_map]
    rw [show (Prod.fst ∘ fun k =>
      (k, ((rowsOfKey rows k).map (·.debit)).sum)) = id from rfl, List.map_id]
  constructor
  · rw [hkeys]
    exact sortKeys_strictSorted _
  · intro k
    rw [hkeys, mem_sortKeys, mem_presentKeys]

/-- Witness for C6's amended statement. -/
theorem C6_monthly_total_order_w :
    "Feb, 2024" ∈
      (summary_df (process_rows zeroFuzz exDateParse exRowsMonths)).map Prod.fst :=
  ((C6_monthly_total_order
    (process_rows zeroFuzz exDateParse exRowsMonths)).2 "Feb, 2024").mpr (by decide)

/-! ## Claim C7 -/

/-- C7 counterexample: the SYUKURAN label occurs in the dataset (on the
row whose date failed to parse) and the period Jan-2024 is present, yet
the pivot row for Jan-2024 carries no SYUKURAN entry at all — rows with
a missing month key are dropped by the groupby, so their categories
contribute no pivot column. -/
theorem C7_cex :
    category_pivot (process_rows zeroFuzz exDateParse exRowsPivot) =
      [("Jan, 2024", [("GALON", 50000)])] ∧
    "SYUKURAN" ∈ (process_rows zeroFuzz exDateParse exRowsPivot).map (·.category) ∧
    some "Jan, 2024" ∈
      (process_rows zeroFuzz exDateParse exRowsPivot).map (·.monthYear) :=
  ⟨by decide, by decide, by decide⟩

/-- C7 amended: for every period present among the rows and every
category label present among rows with a defined month key, the pivot
row of that period has an entry for that category, whose value is the
debit sum of the matching rows — 0 when no row has that (period,
category) pair. -/
theorem C7_pivot_zero_fill (rows : List Row) (k c : String)
    (hk : some k ∈ rows.map (·.monthYear))
    (hc : ∃ r ∈ rows, r.monthYear.isSome = true ∧ r.category = c) :
    ∃ cols, (k, cols) ∈ category_pivot rows ∧
      (c, (((rowsOfKey rows k).filter
        (fun r => r.category == c)).map (·.debit)).sum) ∈ cols ∧
      ((∀ r ∈ rows, ¬(r.monthYear = some k ∧ r.category = c)) →
        (((rowsOfKey rows k).filter
          (fun r => r.category == c)).map (·.debit)).sum = 0) := by
  refine ⟨(sortKeys (presentCats rows)).map (fun c2 =>
    (c2, (((rowsOfKey rows k).filter
      (fun r => r.category == c2)).map (·.debit)).sum)), ?_, ?_, ?_⟩
  · have hk2 : k ∈ sortKeys (presentKeys rows) :=
      mem_sortKeys.mpr (mem_presentKeys.mpr hk)
    exact List.mem_map_of_mem _ hk2
  · have hc2 : c ∈ sortKeys (presentCats rows) := by
      obtain ⟨r, hr, hsome, hcat⟩ := hc
      apply mem_sortKeys.mpr
      exact List.mem_map.mpr ⟨r, List.mem_filter.mpr ⟨hr, hsome⟩, hcat⟩
    exact List.mem_map_of_mem _ hc2
  · intro hnone
    have hfil : (rowsOfKey rows k).filter (fun r => r.category == c) = [] := by
      apply List.filter_eq_nil_iff.mpr
      intro r hr hbeq
      have hrk := List.mem_filter.mp hr
      exact hnone r hrk.1 ⟨by simpa using hrk.2, by simpa using hbeq⟩
    rw [hfil]
    rfl

/-- Witness for C7's amended statement at the GALON column. -/
theorem C7_pivot_zero_fill_w :
    ∃ cols, ("Jan, 2024", cols) ∈
        category_pivot (process_rows zeroFuzz exDateParse exRowsPivot) ∧
      ("GALON", (50000 : Int)) ∈ cols := by
  obtain ⟨cols, h1, h2, _⟩ :=
    C7_pivot_zero_fill (process_rows zeroFuzz exDateParse exRowsPivot)
      "Jan, 2024" "GALON" (by decide) (by decide)
  rw [show (((rowsOfKey (process_rows zeroFuzz exDateParse exRowsPivot)
      "Jan, 2024").filter (fun r => r.category == "GALON")).map
      (·.debit)).sum = (50000 : Int) from by decide] at h2
  exact ⟨cols, h1, h2⟩

/-! ## Claim C8 -/

theorem presentKeys_filter (rows : List Row) :
    presentKeys (rows.filter (·.monthYear.isSome)) = presentKeys rows := by
  induction rows with
  | nil => rfl
  | cons r rs ih =>
    cases hk : r.monthYear with
    | none => simpa [presentKeys, List.filter_cons, hk] using ih
    | some k => simpa [presentKeys, List.filter_cons, hk] using ih

theorem presentCats_filter (rows : List Row) :
    presentCats (rows.filter (·.monthYear.isSome)) = presentCats rows := by
  unfold presentCats
  rw [List.filter_filter]
  simp

theorem rowsOfKey_filter (rows : List Row) (k : String) :
    rowsOfKey (rows.filter (·.monthYear.isSome)) k = rowsOfKey rows k := by
  unfold rowsOfKey
  rw [List.filter_filter]
  congr 1
  funext r
  cases hk : r.monthYear <;> simp [hk]

/-- C8: unparsable dates are coerced to the missing marker (never an
error), every row's month key is a defined value (the marker when the
date is missing), and each grouped table is exactly the grouped table of
the well-dated rows, so aggregation is total and never fails on rows
with missing dates — it silently excludes them. -/
theorem C8_nat_date_handling (fz : FuzzMetrics)
    (dateParse : String → Option (Nat × Nat)) (rows : List RawRow) :
    (∀ r ∈ rows, (enrich_row fz dateParse r).monthYear =
      (dateParse r.rawDate).map (fun ym => monthYearKey ym.1 ym.2)) ∧
    summary_df (process_rows fz dateParse rows) =
      summary_df ((process_rows fz dateParse rows).filter (·.monthYear.isSome)) ∧
    category_pivot (process_rows fz dateParse rows) =
      category_pivot ((process_rows fz dateParse rows).filter (·.monthYear.isSome)) ∧
    rice_summary (process_rows fz dateParse rows) =
      rice_summary ((process_rows fz dateParse rows).filter (·.monthYear.isSome)) := by
  refine ⟨fun r _ => rfl, ?_, ?_, ?_⟩
  · simp only [summary_df, presentKeys_filter, rowsOfKey_filter]
  · simp only [category_pivot, presentKeys_filter, presentCats_filter, rowsOfKey_filter]
  · simp only [rice_summary, presentKeys_filter, rowsOfKey_filter]

/-- Witness for C8 on a table with an unparsable date. -/
theorem C8_nat_date_handling_w :
    (enrich_row zeroFuzz exDateParse ⟨"bad date", "syukuran kantor", 15000⟩).monthYear
      = none ∧
    summary_df (process_rows zeroFuzz exDateParse exRowsPivot) =
      summary_df ((process_rows zeroFuzz exDateParse exRowsPivot).filter
        (·.monthYear.isSome)) := by
  constructor
  · have h := (C8_nat_date_handling zeroFuzz exDateParse exRowsPivot).1
      ⟨"bad date", "syukuran kantor", 15000⟩ (by decide)
    exact h.trans (by decide)
  · exact (C8_nat_date_handling zeroFuzz exDateParse exRowsPivot).2.1

/-! ## Claim C9 -/

/-- C9: any description cell — string, null, or numeric — is coerced by
`str()` and processed totally: the categorizer always returns one of the
table's labels and the extractor always returns a non-negative count. -/
theorem C9_total_coercion (fz : FuzzMetrics) (v : PyVal) :
    categorize_description fz (pyToString v) ∈ categories.map Prod.fst ∧
    0 ≤ extract_rice_quantity (pyToString v) := by
  refine ⟨?_, Nat.zero_le _⟩
  have hsub : matched_categories fz (pyLower (pyToString v)) ⊆
      categories.map Prod.fst :=
    List.map_subset _ (List.filter_sublist _).subset
  simp only [categorize_description]
  by_cases h1 : is_similar fz (pyLower (pyToString v)) ["beras"] 85 = true
  · rw [if_pos h1]
    decide
  · rw [if_neg h1]
    by_cases h2 :
        ((matched_categories fz (pyLower (pyToString v))).length != 1) = true
    · rw [if_pos h2]
      decide
    · rw [if_neg h2]
      cases hms : matched_categories fz (pyLower (pyToString v)) with
      | nil =>
        rw [hms] at h2
        simp at h2
      | cons c cs =>
        rw [List.headD_cons]
        have hmem : c ∈ matched_categories fz (pyLower (pyToString v)) := by
          rw [hms]
          exact List.mem_cons_self c cs
        exact hsub hmem

/-! ## Claim C10 -/

/-- C10 counterexample: a caller-supplied rule set mapping KOPI to the
keyword `kopi` would, under the spec's matching semantics, categorize
`'kopi racik'` as KOPI; the program's categorizer — which takes no rule
set and uses only its hard-coded table — returns LAINNYA. -/
theorem C10_cex :
    categorizeWith zeroFuzz [("KOPI", ["kopi"])] "kopi racik" = "KOPI" ∧
    categorize_description zeroFuzz "kopi racik" = "LAINNYA" ∧
    ("KOPI" : String) ≠ "LAINNYA" :=
  ⟨by decide, by decide, by decide⟩

/-- C10 amended: `categorize_description` coincides with the spec's
rule-set-parametric categorizer applied to the one built-in table; the
program itself offers no way to supply a different rule set. -/
theorem C10_fixed_rule_set (fz : FuzzMetrics) (d : String) :
    categorize_description fz d = categorizeWith fz categories d := rfl

end KK
